import Mathlib

/-!
Verification of the icon-resolution core of the `obsidian-simple-icons`
plugin, shallowly embedded from the TypeScript source.

Embedded units:
* `src/types.ts` — `TagMapping`, `FolderMapping`, `PluginSettings`,
  `DEFAULT_SETTINGS`, `IconCache`.
* `src/IconResolver.ts` — `getIconForFile`, `getIconFromFrontmatter`,
  `getIconFromTags`, `getIconFromFolder`, `invalidateFile`.
* `src/main.ts` — the vault `rename` event handler, `loadSettings`.
* `TagMappingModal.ts` — the validation and apply phases of
  `importMappings`.

JavaScript strings are modelled as Lean `String`; `string | null` as
`Option String`; JS objects parsed from JSON as an explicit `Json` tree.
Truthiness of a JS string is `s ≠ ""`.
-/

namespace SimpleIcons

/-- `TagMapping` from `types.ts`: associates a tag with an icon name. -/
structure TagMapping where
  tag : String
  icon : String
  deriving Repr, DecidableEq

/-- `FolderMapping` from `types.ts`: associates a folder path with an icon name. -/
structure FolderMapping where
  path : String
  icon : String
  deriving Repr, DecidableEq

/-- `PluginSettings` from `types.ts`. -/
structure PluginSettings where
  enableFrontmatter : Bool
  frontmatterProperty : String
  enableTags : Bool
  enableFolders : Bool
  renderInWikilinks : Bool
  renderInFileView : Bool
  renderInFileLists : Bool
  tagMappings : List TagMapping
  folderMappings : List FolderMapping
  deriving Repr, DecidableEq

/-- `DEFAULT_SETTINGS` from `types.ts`. -/
def DEFAULT_SETTINGS : PluginSettings :=
  { enableFrontmatter := true
    frontmatterProperty := "icon"
    enableTags := false
    enableFolders := false
    renderInWikilinks := true
    renderInFileView := true
    renderInFileLists := true
    tagMappings := []
    folderMappings := [] }

/-- A frontmatter value as the resolver can observe it: a string, an array,
or any other JS value.  For a non-string, non-array value we record the
result of JS `String(v)` (`coerced`) and its JS truthiness (`truthy`),
which is all the resolver ever looks at. -/
inductive FmValue where
  | str (s : String)
  | arr (elems : List FmValue)
  | other (coerced : String) (truthy : Bool)
  deriving Repr

mutual

/-- JS `String(v)`.  For arrays, JS joins the coerced elements with ",". -/
def fmCoerce : FmValue → String
  | .str s => s
  | .arr l => String.intercalate "," (fmCoerceList l)
  | .other c _ => c

/-- `fmCoerce` mapped over a list of values. -/
def fmCoerceList : List FmValue → List String
  | [] => []
  | e :: rest => fmCoerce e :: fmCoerceList rest

end

/-- JS truthiness of a frontmatter value: a string is truthy iff non-empty,
an array (object) is always truthy. -/
def fmTruthy : FmValue → Bool
  | .str s => s != ""
  | .arr _ => true
  | .other _ t => t

/-- A frontmatter dictionary: key/value pairs (first occurrence wins on
lookup, as in a JS object). -/
abbrev Frontmatter := List (String × FmValue)

/-- JS property read `fm[key]`, `undefined` modelled as `none`. -/
def fmLookup (fm : Frontmatter) (key : String) : Option FmValue :=
  (fm.find? (fun e => e.1 == key)).map (·.2)

/-- `CachedMetadata` as consumed by the resolver: the optional inline tag
cache (`metadata.tags`, each entry contributing its `tag` string) and the
optional frontmatter dictionary. -/
structure CachedMetadata where
  tags : Option (List String)
  frontmatter : Option Frontmatter
  deriving Repr

/-- JS truthiness of a nullable string (`if (icon)`). -/
def jsTruthy : Option String → Bool
  | none => false
  | some s => s != ""

/-! ### JS string primitives

The JS string methods the plugin uses (`trim`, `startsWith`, `endsWith`,
`substring(1)`, `split`, `slice(0,-1)` via the trailing-slash regex,
`toLowerCase`) are modelled structurally over the character list of a
Lean `String`, so every concrete evaluation reduces in the kernel. -/

/-- JS `s.trim()`: remove whitespace from both ends. -/
def jsTrim (s : String) : String :=
  ⟨((s.data.dropWhile Char.isWhitespace).reverse.dropWhile Char.isWhitespace).reverse⟩

/-- JS `s.startsWith(pre)`. -/
def jsStartsWith (s pre : String) : Bool :=
  pre.data.isPrefixOf s.data

/-- JS `s.endsWith(suf)`. -/
def jsEndsWith (s suf : String) : Bool :=
  suf.data.reverse.isPrefixOf s.data.reverse

/-- JS `s.substring(1)`: drop the first character. -/
def jsDropFirst (s : String) : String :=
  ⟨s.data.drop 1⟩

/-- Drop the last character (the `.replace(/\/$/, "")` of a string known
to end in the matched character). -/
def jsDropLast (s : String) : String :=
  ⟨s.data.dropLast⟩

/-- JS `s.toLowerCase()` (ASCII, which is all the plugin's tags use). -/
def jsToLower (s : String) : String :=
  ⟨s.data.map Char.toLower⟩

/-- The groups of `l` split at every occurrence of `c`
(JS `s.split(c)` semantics: the empty string yields one empty group). -/
def splitAtChar (c : Char) : List Char → List (List Char)
  | [] => [[]]
  | x :: xs =>
    if x = c then [] :: splitAtChar c xs
    else
      match splitAtChar c xs with
      | [] => [[x]]
      | g :: gs => (x :: g) :: gs

/-- JS `s.split("/")`. -/
def jsSplitSlash (s : String) : List String :=
  (splitAtChar (Char.ofNat 47) s.data).map (fun g => ⟨g⟩)

/-- Normalization applied to every tag in `getIconFromTags`:
trim whitespace, then strip one leading `#`. -/
def normalizeTag (t : String) : String :=
  let tag := jsTrim t
  if jsStartsWith tag "#" then jsDropFirst tag else tag

/-- The tag list built at the top of `getIconFromTags`: inline tags
(`metadata.tags`, when present and non-empty) followed by frontmatter
`tags` (array or single string; other truthy values contribute nothing,
falsy values are skipped by the `if (metadata.frontmatter?.tags)` guard).
Non-string array elements are coerced with `String(tag).trim()`. -/
def collectAllTags (md : CachedMetadata) : List String :=
  (match md.tags with
   | some ts => if ts.length > 0 then ts.map normalizeTag else []
   | none => []) ++
  (match md.frontmatter with
   | some fm =>
     match fmLookup fm "tags" with
     | some v =>
       if fmTruthy v then
         match v with
         | .arr l =>
           l.map (fun e =>
             match e with
             | .str s => normalizeTag s
             | e => jsTrim (fmCoerce e))
         | .str s => [normalizeTag s]
         | .other _ _ => []
       else []
     | none => []
   | none => [])

/-- The per-mapping loop body of `getIconFromTags`: return the icon of the
first mapping whose normalized tag occurs in `allTags` and whose icon is
truthy and non-blank. -/
def findTagIcon (allTags : List String) : List TagMapping → Option String
  | [] => none
  | m :: rest =>
    let normalizedMappingTag := normalizeTag m.tag
    if allTags.contains normalizedMappingTag && m.icon != "" && jsTrim m.icon != "" then
      some m.icon
    else
      findTagIcon allTags rest

/-- `IconResolver.getIconFromTags`. -/
def getIconFromTags (tagMappings : List TagMapping) (md : CachedMetadata) :
    Option String :=
  let allTags := collectAllTags md
  if allTags.length = 0 then none
  else findTagIcon allTags tagMappings

/-- Path normalization in `getIconFromFolder`:
`mapping.path.replace(/^\//, "").replace(/\/$/, "")` — strip at most one
leading and one trailing slash. -/
def normalizeFolderPath (s : String) : String :=
  let s1 := if jsStartsWith s "/" then jsDropFirst s else s
  if jsEndsWith s1 "/" then jsDropLast s1 else s1

/-- The match test in `getIconFromFolder`:
`filePath.startsWith(folderPath + "/") || filePath.startsWith(folderPath)`
(the second disjunct is a plain string prefix test). -/
def folderRuleMatches (folderPath filePath : String) : Bool :=
  jsStartsWith filePath (folderPath ++ "/") || jsStartsWith filePath folderPath

/-- The loop of `getIconFromFolder`, accumulating the current
`deepestMatch` as `(depth, icon)`. -/
def folderLoop (filePath : String) :
    Option (Nat × String) → List FolderMapping → Option (Nat × String)
  | deepestMatch, [] => deepestMatch
  | deepestMatch, m :: rest =>
    let folderPath := normalizeFolderPath m.path
    let next :=
      if folderRuleMatches folderPath filePath then
        let depth := (jsSplitSlash folderPath).length
        if deepestMatch.all (fun dm => depth > dm.1) then
          if m.icon != "" && jsTrim m.icon != "" then
            some (depth, m.icon)
          else deepestMatch
        else deepestMatch
      else deepestMatch
    folderLoop filePath next rest

/-- `IconResolver.getIconFromFolder`.  The final
`return deepestMatch?.icon || null` maps an empty icon (never produced by
the loop, but modelled faithfully) to `null`. -/
def getIconFromFolder (folderMappings : List FolderMapping) (filePath : String) :
    Option String :=
  match folderLoop filePath none folderMappings with
  | none => none
  | some (_, icon) => if icon != "" then some icon else none

/-- Specification-side view of folder matching (for comparison with the
loop in `getIconFromFolder`): the rules matching a file, in list order,
as (depth, icon) pairs. -/
def matchingFolderRules (folderMappings : List FolderMapping) (filePath : String) :
    List (Nat × String) :=
  folderMappings.filterMap (fun m =>
    let folderPath := normalizeFolderPath m.path
    if folderRuleMatches folderPath filePath then
      some ((jsSplitSlash folderPath).length, m.icon)
    else none)

/-- Specification-side selection: the first-encountered pair of greatest
depth (a later pair is preferred only when strictly deeper). -/
def deepestFirst : List (Nat × String) → Option (Nat × String)
  | [] => none
  | p :: rest =>
    match deepestFirst rest with
    | none => some p
    | some q => if q.1 > p.1 then some q else some p

/-- One step of deepest-match selection: prefer the new pair over the
accumulator only when it is strictly deeper. -/
def preferDeeper (acc : Option (Nat × String)) (p : Nat × String) :
    Option (Nat × String) :=
  match acc with
  | none => some p
  | some q => if p.1 > q.1 then some p else some q

/-- Fold a selection result into an accumulator, pair by pair. -/
def combineOpt (acc r : Option (Nat × String)) : Option (Nat × String) :=
  match r with
  | none => acc
  | some p => preferDeeper acc p

/-- `IconResolver.getIconFromFrontmatter`:
`property = settings.frontmatterProperty || "icon"`, then return the
property value when it is a string with non-blank trim. -/
def getIconFromFrontmatter (settings : PluginSettings) (md : CachedMetadata) :
    Option String :=
  let property :=
    if settings.frontmatterProperty != "" then settings.frontmatterProperty
    else "icon"
  let iconName : Option FmValue :=
    match md.frontmatter with
    | some fm => fmLookup fm property
    | none => none
  match iconName with
  | some (.str s) => if jsTrim s != "" then some s else none
  | _ => none

/-- `IconCache` from `types.ts`: a JS object keyed by file path holding
`string | null` entries.  Modelled as an association list where the most
recent write is at the head. -/
abbrev IconCache := List (String × Option String)

/-- Read `cache[path]`: `none` models `undefined` (no entry);
`some v` models a stored entry `v : string | null`. -/
def cacheGet (cache : IconCache) (path : String) : Option (Option String) :=
  (cache.find? (fun e => e.1 == path)).map (·.2)

/-- Write `cache[path] = v`. -/
def cacheSet (cache : IconCache) (path : String) (v : Option String) : IconCache :=
  (path, v) :: cache

/-- `IconResolver.invalidateFile`: `delete this.cache[file.path]`. -/
def invalidateFile (cache : IconCache) (path : String) : IconCache :=
  cache.filter (fun e => e.1 != path)

/-- `IconResolver.getIconForFile`.  The resolver's mutable state is passed
explicitly: the call takes the current cache and returns the resolved
icon together with the updated cache.  `metadata` is the value the host's
`metadataCache.getFileCache(file)` returns for this file (`none` models
`null`). -/
def getIconForFile (settings : PluginSettings) (cache : IconCache)
    (filePath : String) (metadata : Option CachedMetadata) :
    Option String × IconCache :=
  match cacheGet cache filePath with
  | some v => (v, cache)
  | none =>
    let icon1 : Option String :=
      if settings.enableFrontmatter then
        match metadata with
        | some md =>
          match md.frontmatter with
          | some _ => getIconFromFrontmatter settings md
          | none => none
        | none => none
      else none
    if jsTruthy icon1 then (icon1, cacheSet cache filePath icon1)
    else
      let icon2 : Option String :=
        if settings.enableTags then
          match metadata with
          | some md => getIconFromTags settings.tagMappings md
          | none => none
        else none
      if jsTruthy icon2 then (icon2, cacheSet cache filePath icon2)
      else
        let icon3 : Option String :=
          if settings.enableFolders then
            getIconFromFolder settings.folderMappings filePath
          else none
        if jsTruthy icon3 then (icon3, cacheSet cache filePath icon3)
        else (none, cacheSet cache filePath none)

/-- The vault `"rename"` event handler registered in `main.ts` `onload`,
restricted to its cache effect for a `TFile`: it calls
`invalidateFile(file)` — `file.path` is already the new path — and never
touches `oldPath`. -/
def onRenameCacheEffect (cache : IconCache) (newPath oldPath : String) :
    IconCache :=
  invalidateFile cache newPath

/-! ### JSON values

Settings persistence (`main.ts`) and mapping import (`TagMappingModal.ts`)
exchange parsed JSON values.  `JSON.parse ∘ JSON.stringify` is the host's
identity on JSON-representable data, so serialization is modelled at the
level of JSON trees. -/

/-- A parsed JSON value. -/
inductive Json where
  | null
  | bool (b : Bool)
  | num (n : Int)
  | str (s : String)
  | arr (elems : List Json)
  | obj (fields : List (String × Json))
  deriving Repr

/-- JS property read `j[k]` on a parsed JSON value (`undefined` → `none`;
non-objects have none of the properties we ever read). -/
def jsonProp (j : Json) (k : String) : Option Json :=
  match j with
  | .obj fields => (fields.find? (fun f => f.1 == k)).map (·.2)
  | _ => none

/-- JS `j.hasOwnProperty(k)` as used by the import validator.  Only plain
objects carry the `"tag"`/`"icon"` properties the validator asks about. -/
def hasProp (j : Json) (k : String) : Bool :=
  match j with
  | .obj fields => fields.any (fun f => f.1 == k)
  | _ => false

/-! ### Settings persistence (`main.ts` `loadSettings` / `saveSettings`) -/

/-- `JSON.stringify` of a `TagMapping` record, as a JSON tree. -/
def tagMappingToJson (m : TagMapping) : Json :=
  .obj [("tag", .str m.tag), ("icon", .str m.icon)]

/-- `JSON.stringify` of a `FolderMapping` record, as a JSON tree. -/
def folderMappingToJson (m : FolderMapping) : Json :=
  .obj [("path", .str m.path), ("icon", .str m.icon)]

/-- `saveSettings`: the JSON blob handed to `saveData` — the settings
record with every field serialized. -/
def settingsToJson (s : PluginSettings) : Json :=
  .obj
    [ ("enableFrontmatter", .bool s.enableFrontmatter)
    , ("frontmatterProperty", .str s.frontmatterProperty)
    , ("enableTags", .bool s.enableTags)
    , ("enableFolders", .bool s.enableFolders)
    , ("renderInWikilinks", .bool s.renderInWikilinks)
    , ("renderInFileView", .bool s.renderInFileView)
    , ("renderInFileLists", .bool s.renderInFileLists)
    , ("tagMappings", .arr (s.tagMappings.map tagMappingToJson))
    , ("folderMappings", .arr (s.folderMappings.map folderMappingToJson))
    ]

/-- Read a persisted boolean field back at its declared type. -/
def decodeBool : Json → Option Bool
  | .bool b => some b
  | _ => none

/-- Read a persisted string field back at its declared type. -/
def decodeStr : Json → Option String
  | .str s => some s
  | _ => none

/-- Read a persisted `TagMapping` element back at its declared type. -/
def decodeTagMapping (j : Json) : Option TagMapping :=
  match jsonProp j "tag", jsonProp j "icon" with
  | some (.str t), some (.str i) => some ⟨t, i⟩
  | _, _ => none

/-- Read a persisted `FolderMapping` element back at its declared type. -/
def decodeFolderMapping (j : Json) : Option FolderMapping :=
  match jsonProp j "path", jsonProp j "icon" with
  | some (.str p), some (.str i) => some ⟨p, i⟩
  | _, _ => none

/-- Decode every element of a persisted mapping list. -/
def decodeListWith (dec : Json → Option α) : List Json → Option (List α)
  | [] => some []
  | j :: rest =>
    match dec j with
    | some m => (decodeListWith dec rest).map (m :: ·)
    | none => none

/-- Read a persisted mapping-list field back at its declared type. -/
def decodeList (dec : Json → Option α) : Json → Option (List α)
  | .arr l => decodeListWith dec l
  | _ => none

/-- `loadSettings`: `Object.assign({}, DEFAULT_SETTINGS, await loadData())`.
`Object.assign` keeps the loaded value for every key present in the blob
and the default for every absent key; blobs written by `saveSettings`
store every field at its declared type, which the decoders read back. -/
def loadSettings (data : Json) : PluginSettings :=
  { enableFrontmatter :=
      ((jsonProp data "enableFrontmatter").bind decodeBool).getD
        DEFAULT_SETTINGS.enableFrontmatter
    frontmatterProperty :=
      ((jsonProp data "frontmatterProperty").bind decodeStr).getD
        DEFAULT_SETTINGS.frontmatterProperty
    enableTags :=
      ((jsonProp data "enableTags").bind decodeBool).getD
        DEFAULT_SETTINGS.enableTags
    enableFolders :=
      ((jsonProp data "enableFolders").bind decodeBool).getD
        DEFAULT_SETTINGS.enableFolders
    renderInWikilinks :=
      ((jsonProp data "renderInWikilinks").bind decodeBool).getD
        DEFAULT_SETTINGS.renderInWikilinks
    renderInFileView :=
      ((jsonProp data "renderInFileView").bind decodeBool).getD
        DEFAULT_SETTINGS.renderInFileView
    renderInFileLists :=
      ((jsonProp data "renderInFileLists").bind decodeBool).getD
        DEFAULT_SETTINGS.renderInFileLists
    tagMappings :=
      ((jsonProp data "tagMappings").bind (decodeList decodeTagMapping)).getD
        DEFAULT_SETTINGS.tagMappings
    folderMappings :=
      ((jsonProp data "folderMappings").bind (decodeList decodeFolderMapping)).getD
        DEFAULT_SETTINGS.folderMappings }

/-! ### Mapping import (`TagMappingModal.ts` `importMappings`)

The handler parses the chosen file, validates the payload, asks the user
how to apply it (merge / replace / cancel, plus a duplicate-handling
choice), mutates `this.mappings`, and shows a `Notice`.  Any exception
before the apply step is caught and shown as `Import failed: …` with the
mapping list untouched.  The interactive choices are passed in as
explicit arguments. -/

/-- The merge/replace/cancel choice offered by the preview modal. -/
inductive ImportAction where
  | merge
  | replace
  | cancel
  deriving Repr, DecidableEq

/-- The duplicate-handling choice (skip duplicates / replace existing). -/
inductive DupChoice where
  | skip
  | replaceExisting
  deriving Repr, DecidableEq

/-- The validation phase of `importMappings`: the parsed payload must be
an array whose every element has both a `tag` and an `icon` property,
otherwise an error is thrown (and later caught into a `Notice`). -/
def validateImport (j : Json) : Except String (List Json) :=
  match j with
  | .arr items =>
    if items.all (fun it => hasProp it "tag" && hasProp it "icon") then
      .ok items
    else .error "Invalid format: missing tag or icon property"
  | _ => .error "Invalid format: expected array"

/-- The unchecked `JSON.parse(text) as TagMapping[]` cast, read back for a
payload element whose fields are strings (non-string fields read as `""`;
the claims under proof only exercise well-typed or rejected payloads). -/
def importedMappingOf (j : Json) : TagMapping :=
  { tag :=
      match jsonProp j "tag" with
      | some (.str s) => s
      | _ => ""
    icon :=
      match jsonProp j "icon" with
      | some (.str s) => s
      | _ => "" }

/-- Duplicate detection in the merge path: every imported mapping whose
tag (case-insensitively) already occurs in the current list. -/
def findDuplicates (current imported : List TagMapping) : List TagMapping :=
  imported.filter (fun imp =>
    current.any (fun m => jsToLower m.tag == jsToLower imp.tag))

/-- "Replace Existing": for each duplicate, `findIndex` + `splice(index, 1)`
on the current list. -/
def removeDuplicatesFromCurrent (dups current : List TagMapping) :
    List TagMapping :=
  dups.foldl
    (fun ms d =>
      match ms.findIdx? (fun m => jsToLower m.tag == jsToLower d.tag) with
      | some i => ms.eraseIdx i
      | none => ms)
    current

/-- "Skip Duplicates": `imported.forEach((imp, idx) => … imported.splice(idx, 1))`.
JS `forEach` fixes the index bound at the original length and reads the
array as currently mutated, so the loop is modelled with the original
length as fuel and an index that advances past a just-spliced slot. -/
def forEachSpliceSkip (dups : List TagMapping) :
    Nat → Nat → List TagMapping → List TagMapping
  | 0, _, arr => arr
  | fuel + 1, k, arr =>
    if h : k < arr.length then
      let imp := arr.get ⟨k, h⟩
      let arr' :=
        if dups.any (fun d => jsToLower d.tag == jsToLower imp.tag) then
          arr.eraseIdx k
        else arr
      forEachSpliceSkip dups fuel (k + 1) arr'
    else forEachSpliceSkip dups fuel (k + 1) arr

/-- `importMappings`, from file parse result to the new mapping list and
the `Notice` text (if any): validation, the preview choice, duplicate
handling, and the apply step. -/
def importMappings (current : List TagMapping) (parsed : Except String Json)
    (action : ImportAction) (dupChoice : DupChoice) :
    List TagMapping × Option String :=
  match parsed with
  | .error e => (current, some ("Import failed: " ++ e))
  | .ok j =>
    match validateImport j with
    | .error e => (current, some ("Import failed: " ++ e))
    | .ok items =>
      match action with
      | .cancel => (current, none)
      | .replace =>
        let imported := items.map importedMappingOf
        (imported,
         some ("Successfully imported " ++ toString imported.length ++ " mapping(s)"))
      | .merge =>
        let imported := items.map importedMappingOf
        let duplicates := findDuplicates current imported
        if duplicates.length > 0 then
          match dupChoice with
          | .replaceExisting =>
            let current' := removeDuplicatesFromCurrent duplicates current
            (current' ++ imported,
             some ("Successfully imported " ++ toString imported.length ++ " mapping(s)"))
          | .skip =>
            let imported' :=
              forEachSpliceSkip duplicates imported.length 0 imported
            (current ++ imported',
             some ("Successfully imported " ++ toString imported'.length ++ " mapping(s)"))
        else
          (current ++ imported,
           some ("Successfully imported " ++ toString imported.length ++ " mapping(s)"))

/-! ## Helper lemmas -/

/-- A string whose trim is non-empty is itself non-empty. -/
theorem ne_empty_of_trim_ne_empty {s : String} (h : jsTrim s ≠ "") : s ≠ "" := by
  intro he
  exact h (by rw [he]; rfl)

/-- Reading a just-written cache slot returns the written value. -/
theorem cacheGet_cacheSet (c : IconCache) (p : String) (v : Option String) :
    cacheGet (cacheSet c p v) p = some v := by
  simp [cacheGet, cacheSet]

/-- If both branches of a conditional resolver outcome leave the returned
value stored under `p`, so does the conditional. -/
theorem cacheGet_branch (p : String) (b : Bool) (x y : Option String × IconCache)
    (hx : cacheGet x.2 p = some x.1) (hy : cacheGet y.2 p = some y.1) :
    cacheGet (if b then x else y).2 p = some (if b then x else y).1 := by
  cases b <;> simpa

/-- After any `getIconForFile` call, the cache it returns holds exactly the
value it returned, under the file's path. -/
theorem getIconForFile_caches_result (settings : PluginSettings)
    (cache : IconCache) (filePath : String) (metadata : Option CachedMetadata) :
    cacheGet (getIconForFile settings cache filePath metadata).2 filePath
      = some (getIconForFile settings cache filePath metadata).1 := by
  unfold getIconForFile
  cases hc : cacheGet cache filePath with
  | some v => simpa using hc
  | none =>
    repeat first
      | exact cacheGet_cacheSet _ _ _
      | apply cacheGet_branch

/-- On a cache hit, `getIconForFile` returns the stored value and leaves
the cache untouched. -/
theorem getIconForFile_cache_hit (settings : PluginSettings)
    (cache : IconCache) (filePath : String) (metadata : Option CachedMetadata)
    (v : Option String) (h : cacheGet cache filePath = some v) :
    getIconForFile settings cache filePath metadata = (v, cache) := by
  unfold getIconForFile
  rw [h]

/-- On a cache miss, `getIconForFile` computes the first truthy tier value
(frontmatter, then tags, then folders), stores it, and returns it. -/
theorem getIconForFile_fresh (settings : PluginSettings) (cache : IconCache)
    (filePath : String) (metadata : Option CachedMetadata)
    (hc : cacheGet cache filePath = none) :
    getIconForFile settings cache filePath metadata =
      (let icon1 : Option String :=
        if settings.enableFrontmatter then
          match metadata with
          | some md =>
            match md.frontmatter with
            | some _ => getIconFromFrontmatter settings md
            | none => none
          | none => none
        else none
      let icon2 : Option String :=
        if settings.enableTags then
          match metadata with
          | some md => getIconFromTags settings.tagMappings md
          | none => none
        else none
      let icon3 : Option String :=
        if settings.enableFolders then
          getIconFromFolder settings.folderMappings filePath
        else none
      let r :=
        if jsTruthy icon1 then icon1
        else if jsTruthy icon2 then icon2
        else if jsTruthy icon3 then icon3
        else none
      (r, cacheSet cache filePath r)) := by
  unfold getIconForFile
  rw [hc]
  simp only
  split_ifs <;> rfl

/-! ## Claims -/

/-- C1: for every file whose enabled frontmatter property holds a
non-blank string icon value — whatever the tag and folder rules, matching
or not — `getIconForFile` returns the frontmatter value (priority
Frontmatter > Tags > Folders); and when no tier produces an icon, the
result is `null` and no error is raised (the resolver is a total
function). -/
theorem C1_frontmatter_priority :
    (∀ (settings : PluginSettings) (cache : IconCache) (filePath : String)
       (md : CachedMetadata) (fm : Frontmatter) (s : String),
       cacheGet cache filePath = none →
       settings.enableFrontmatter = true →
       md.frontmatter = some fm →
       fmLookup fm
           (if settings.frontmatterProperty != "" then settings.frontmatterProperty
            else "icon")
         = some (.str s) →
       jsTrim s ≠ "" →
       (getIconForFile settings cache filePath (some md)).1 = some s)
  ∧ (∀ (settings : PluginSettings) (cache : IconCache) (filePath : String)
       (md : CachedMetadata),
       cacheGet cache filePath = none →
       getIconFromFrontmatter settings md = none →
       getIconFromTags settings.tagMappings md = none →
       getIconFromFolder settings.folderMappings filePath = none →
       (getIconForFile settings cache filePath (some md)).1 = none) := by
  constructor
  · intro settings cache filePath md fm s hc hf hfm hlook hs
    have hicon : getIconFromFrontmatter settings md = some s := by
      unfold getIconFromFrontmatter
      rw [hfm]
      simp only [hlook]
      rw [if_pos (by simpa using hs)]
    rw [getIconForFile_fresh settings cache filePath (some md) hc]
    simp only [hf, if_true, hfm, hicon]
    have hsne : s ≠ "" := ne_empty_of_trim_ne_empty hs
    simp [jsTruthy, hsne]
  · intro settings cache filePath md hc h1 h2 h3
    rw [getIconForFile_fresh settings cache filePath (some md) hc]
    have e1 : (match md.frontmatter with
               | some _ => getIconFromFrontmatter settings md
               | none => none) = none := by
      cases md.frontmatter <;> simp [h1]
    simp [e1, h2, h3, jsTruthy]

/-- C1 witness: a file with frontmatter icon `star`, a matching tag rule
and a matching folder rule resolves to `star`. -/
theorem C1_frontmatter_priority_witness :
    (getIconForFile
      { DEFAULT_SETTINGS with
          enableTags := true
          enableFolders := true
          tagMappings := [{ tag := "urgent", icon := "alert" }]
          folderMappings := [{ path := "work", icon := "briefcase" }] }
      [] "work/x.md"
      (some { tags := some ["urgent"], frontmatter := some [("icon", .str "star")] })).1
      = some "star" :=
  C1_frontmatter_priority.1 _ _ _ _ _ _ rfl rfl rfl rfl (by decide)

/-- C2: the folder-rule match in `getIconFromFolder` is a plain string
prefix test (`filePath.startsWith(folderPath)`), not a path-segment test:
the rule for folder `work` matches the file `workspace/x.md` and
resolution returns its icon, contrary to the claim (and to the devlog's
documented `startsWith(folder + "/")`-or-equality check). -/
theorem C2_folder_match_is_plain_prefix :
    folderRuleMatches (normalizeFolderPath "work") "workspace/x.md" = true ∧
    getIconFromFolder [{ path := "work", icon := "briefcase" }] "workspace/x.md"
      = some "briefcase" :=
  ⟨rfl, rfl⟩

/-- C3: the `rename` handler invalidates only the file's new path; the old
path's cache entry survives the event.  With `a.md` cached as `star` and a
rename of `a.md` to `b.md`, the stale entry for `a.md` is still present
afterwards, contrary to the claim that both paths are invalidated. -/
theorem C3_rename_keeps_old_path_entry :
    onRenameCacheEffect [("a.md", some "star")] "b.md" "a.md"
        = [("a.md", some "star")] ∧
    cacheGet (onRenameCacheEffect [("a.md", some "star")] "b.md" "a.md") "a.md"
        = some (some "star") :=
  ⟨rfl, rfl⟩

/-- C4: a second `getIconForFile` call for the same path, on the cache
produced by the first call and with no invalidation or settings change in
between, returns exactly the first call's result and leaves the cache
unchanged, whatever metadata (`metadata'`) the host would now report —
i.e. the cached value (including a cached `null`) is returned without any
metadata read. -/
theorem C4_second_resolve_is_cached (settings : PluginSettings)
    (cache : IconCache) (filePath : String)
    (metadata metadata' : Option CachedMetadata) :
    getIconForFile settings ((getIconForFile settings cache filePath metadata).2)
        filePath metadata'
      = ((getIconForFile settings cache filePath metadata).1,
         (getIconForFile settings cache filePath metadata).2) :=
  getIconForFile_cache_hit _ _ _ _ _
    (getIconForFile_caches_result settings cache filePath metadata)

/-- C9: when the configured `frontmatterProperty` is the empty string (the
only falsy string), the resolver reads the property named `icon` instead;
and for a non-empty configured name the result depends only on that
property's value in the file's frontmatter. -/
theorem C9_frontmatter_property_fallback :
    (∀ (settings : PluginSettings) (md : CachedMetadata),
       settings.frontmatterProperty = "" →
       getIconFromFrontmatter settings md
         = getIconFromFrontmatter
             { settings with frontmatterProperty := "icon" } md)
  ∧ (∀ (settings : PluginSettings) (md md' : CachedMetadata),
       settings.frontmatterProperty ≠ "" →
       md.frontmatter.bind (fun fm => fmLookup fm settings.frontmatterProperty)
         = md'.frontmatter.bind (fun fm => fmLookup fm settings.frontmatterProperty) →
       getIconFromFrontmatter settings md = getIconFromFrontmatter settings md') := by
  constructor
  · intro settings md h
    unfold getIconFromFrontmatter
    simp [h]
  · intro settings md md' h hagree
    unfold getIconFromFrontmatter
    have hp : (settings.frontmatterProperty != "") = true := by simpa using h
    simp only [hp, if_true]
    have e1 : ∀ (m : CachedMetadata),
        (match m.frontmatter with
         | some fm => fmLookup fm settings.frontmatterProperty
         | none => none)
          = m.frontmatter.bind (fun fm => fmLookup fm settings.frontmatterProperty) := by
      intro m; cases m.frontmatter <;> rfl
    rw [e1, e1, hagree]

/-- `getIconFromFrontmatter` depends on the settings only through the
configured property name. -/
theorem getIconFromFrontmatter_congr (s1 s2 : PluginSettings) (md : CachedMetadata)
    (h : s1.frontmatterProperty = s2.frontmatterProperty) :
    getIconFromFrontmatter s1 md = getIconFromFrontmatter s2 md := by
  unfold getIconFromFrontmatter
  rw [h]

/-- A tag rule with a blank icon never fires: removing it from the list
leaves `findTagIcon` unchanged. -/
theorem findTagIcon_skip_blank (allTags : List String) (m : TagMapping)
    (h : jsTrim m.icon = "") :
    ∀ (l₁ l₂ : List TagMapping),
      findTagIcon allTags (l₁ ++ m :: l₂) = findTagIcon allTags (l₁ ++ l₂)
  | [], l₂ => by simp [findTagIcon, h]
  | a :: l₁, l₂ => by
    simp only [List.cons_append, findTagIcon, List.append_eq]
    rw [findTagIcon_skip_blank allTags m h l₁ l₂]

/-- A tag rule with a blank icon never fires: removing it from the list
leaves `getIconFromTags` unchanged. -/
theorem getIconFromTags_skip_blank (md : CachedMetadata) (m : TagMapping)
    (l₁ l₂ : List TagMapping) (h : jsTrim m.icon = "") :
    getIconFromTags (l₁ ++ m :: l₂) md = getIconFromTags (l₁ ++ l₂) md := by
  unfold getIconFromTags
  simp only [findTagIcon_skip_blank (collectAllTags md) m h l₁ l₂]

/-- A folder rule with a blank icon never updates the deepest match:
processing it leaves the loop accumulator unchanged. -/
theorem folderLoop_skip_blank (filePath : String) (m : FolderMapping)
    (h : jsTrim m.icon = "") :
    ∀ (l₁ l₂ : List FolderMapping) (acc : Option (Nat × String)),
      folderLoop filePath acc (l₁ ++ m :: l₂) = folderLoop filePath acc (l₁ ++ l₂)
  | [], l₂, acc => by
    simp only [List.nil_append, folderLoop, h]
    simp
  | a :: l₁, l₂, acc => by
    simp only [List.cons_append, folderLoop, List.append_eq]
    rw [folderLoop_skip_blank filePath m h l₁ l₂]

/-- A folder rule with a blank icon never fires: removing it from the list
leaves `getIconFromFolder` unchanged. -/
theorem getIconFromFolder_skip_blank (filePath : String) (m : FolderMapping)
    (l₁ l₂ : List FolderMapping) (h : jsTrim m.icon = "") :
    getIconFromFolder (l₁ ++ m :: l₂) filePath
      = getIconFromFolder (l₁ ++ l₂) filePath := by
  unfold getIconFromFolder
  rw [folderLoop_skip_blank filePath m h l₁ l₂]

/-- C6: a tag or folder rule whose icon is empty or whitespace-only is
never returned; it is skipped at matching time, so resolution — at each
tier and end-to-end through `getIconForFile` — behaves exactly as if the
rule did not exist. -/
theorem C6_blank_icon_rules_skipped :
    (∀ (md : CachedMetadata) (m : TagMapping) (l₁ l₂ : List TagMapping),
       jsTrim m.icon = "" →
       getIconFromTags (l₁ ++ m :: l₂) md = getIconFromTags (l₁ ++ l₂) md)
  ∧ (∀ (filePath : String) (m : FolderMapping) (l₁ l₂ : List FolderMapping),
       jsTrim m.icon = "" →
       getIconFromFolder (l₁ ++ m :: l₂) filePath
         = getIconFromFolder (l₁ ++ l₂) filePath)
  ∧ (∀ (settings : PluginSettings) (cache : IconCache) (filePath : String)
       (metadata : Option CachedMetadata) (tm : TagMapping) (fm : FolderMapping)
       (t₁ t₂ : List TagMapping) (f₁ f₂ : List FolderMapping),
       jsTrim tm.icon = "" → jsTrim fm.icon = "" →
       getIconForFile
           { settings with
               tagMappings := t₁ ++ tm :: t₂
               folderMappings := f₁ ++ fm :: f₂ }
           cache filePath metadata
         = getIconForFile
             { settings with
                 tagMappings := t₁ ++ t₂
                 folderMappings := f₁ ++ f₂ }
             cache filePath metadata) := by
  refine ⟨fun md m l₁ l₂ h => getIconFromTags_skip_blank md m l₁ l₂ h,
          fun fp m l₁ l₂ h => getIconFromFolder_skip_blank fp m l₁ l₂ h,
          ?_⟩
  intro settings cache filePath metadata tm fm t₁ t₂ f₁ f₂ ht hf
  cases hc : cacheGet cache filePath with
  | some v =>
    rw [getIconForFile_cache_hit _ _ _ _ _ hc, getIconForFile_cache_hit _ _ _ _ _ hc]
  | none =>
    rw [getIconForFile_fresh _ _ _ _ hc, getIconForFile_fresh _ _ _ _ hc]
    simp only
    have e2 : ∀ md, getIconFromTags (t₁ ++ tm :: t₂) md = getIconFromTags (t₁ ++ t₂) md :=
      fun md => getIconFromTags_skip_blank md tm t₁ t₂ ht
    have e3 : getIconFromFolder (f₁ ++ fm :: f₂) filePath
        = getIconFromFolder (f₁ ++ f₂) filePath :=
      getIconFromFolder_skip_blank filePath fm f₁ f₂ hf
    cases metadata with
    | none => simp [e3]
    | some md =>
      have e1 : getIconFromFrontmatter
          { settings with
              tagMappings := t₁ ++ tm :: t₂
              folderMappings := f₁ ++ fm :: f₂ } md
        = getIconFromFrontmatter
            { settings with
                tagMappings := t₁ ++ t₂
                folderMappings := f₁ ++ f₂ } md :=
        getIconFromFrontmatter_congr _ _ _ rfl
      simp [e1, e2, e3]

/-- C6 witness: a tag rule `urgent → "  "` (blank icon) together with a
folder rule `work → ""` is skipped end-to-end: resolution of a file
tagged `urgent` under `work/` gives the same result as without the rules. -/
theorem C6_blank_icon_rules_skipped_witness :
    getIconForFile
        { DEFAULT_SETTINGS with
            enableTags := true
            enableFolders := true
            tagMappings := [{ tag := "urgent", icon := "  " }]
            folderMappings := [{ path := "work", icon := "" }] }
        [] "work/x.md" (some { tags := some ["urgent"], frontmatter := none })
      = getIconForFile
          { DEFAULT_SETTINGS with
              enableTags := true
              enableFolders := true
              tagMappings := ([] : List TagMapping) ++ []
              folderMappings := ([] : List FolderMapping) ++ [] }
          [] "work/x.md" (some { tags := some ["urgent"], frontmatter := none }) :=
  C6_blank_icon_rules_skipped.2.2
    { DEFAULT_SETTINGS with enableTags := true, enableFolders := true }
    [] "work/x.md" (some { tags := some ["urgent"], frontmatter := none })
    { tag := "urgent", icon := "  " } { path := "work", icon := "" }
    [] [] [] [] (by decide) (by decide)

/-- C9 witness: with the property configured as `""`, a file whose
frontmatter has `icon: star` resolves through the `icon` fallback. -/
theorem C9_frontmatter_property_fallback_witness :
    getIconFromFrontmatter
        { DEFAULT_SETTINGS with frontmatterProperty := "" }
        { tags := none, frontmatter := some [("icon", .str "star")] }
      = getIconFromFrontmatter
          { { DEFAULT_SETTINGS with frontmatterProperty := "" } with
              frontmatterProperty := "icon" }
          { tags := none, frontmatter := some [("icon", .str "star")] } :=
  C9_frontmatter_property_fallback.1 _ _ rfl

/-- If `findTagIcon` returns an icon, some rule in the list carries that
icon and its normalized tag is literally a member of the tag list. -/
theorem findTagIcon_some_mem (allTags : List String) :
    ∀ (ms : List TagMapping) (icon : String),
      findTagIcon allTags ms = some icon →
      ∃ m ∈ ms, normalizeTag m.tag ∈ allTags ∧ m.icon = icon
  | [], icon, h => by simp [findTagIcon] at h
  | m :: rest, icon, h => by
    simp only [findTagIcon] at h
    by_cases hcond :
        (allTags.contains (normalizeTag m.tag) && m.icon != "" && jsTrim m.icon != "") = true
    · rw [if_pos hcond] at h
      refine ⟨m, List.mem_cons_self m rest, ?_, by injection h⟩
      have := (Bool.and_eq_true _ _).mp ((Bool.and_eq_true _ _).mp hcond).1
      simpa [List.contains, List.elem_eq_mem] using this.1
    · rw [if_neg hcond] at h
      obtain ⟨m', hmem, hin, hicon⟩ := findTagIcon_some_mem allTags rest icon h
      exact ⟨m', List.mem_cons_of_mem m hmem, hin, hicon⟩

/-- If no rule's normalized tag occurs in the tag list, `findTagIcon`
returns nothing. -/
theorem findTagIcon_none_of_no_mem (allTags : List String) :
    ∀ (ms : List TagMapping),
      (∀ m ∈ ms, normalizeTag m.tag ∉ allTags) →
      findTagIcon allTags ms = none
  | [], _ => rfl
  | m :: rest, h => by
    have hm : normalizeTag m.tag ∉ allTags := h m (List.mem_cons_self m rest)
    have hcontains : allTags.contains (normalizeTag m.tag) = false := by
      simpa [List.contains, List.elem_eq_mem] using hm
    simp only [findTagIcon, hcontains, Bool.false_and, if_neg Bool.false_ne_true]
    exact findTagIcon_none_of_no_mem allTags rest
      (fun m' hm' => h m' (List.mem_cons_of_mem m hm'))

/-- C10: tag matching is exact, case-sensitive string equality after
normalization (trim, strip one leading `#`) on both sides: a returned
icon always comes from a rule whose normalized tag is literally among the
file's normalized tags; with no such rule nothing matches; and
concretely, the rule `urgent` does not match a file tagged `Urgent`
(case), `urgent/sub` (hierarchy) or `urgently` (substring), but does
match `urgent`. -/
theorem C10_tag_matching_exact :
    (∀ (ms : List TagMapping) (md : CachedMetadata) (icon : String),
       getIconFromTags ms md = some icon →
       ∃ m ∈ ms, normalizeTag m.tag ∈ collectAllTags md ∧ m.icon = icon)
  ∧ (∀ (ms : List TagMapping) (md : CachedMetadata),
       (∀ m ∈ ms, normalizeTag m.tag ∉ collectAllTags md) →
       getIconFromTags ms md = none)
  ∧ getIconFromTags [{ tag := "urgent", icon := "alert" }]
      { tags := some ["Urgent"], frontmatter := none } = none
  ∧ getIconFromTags [{ tag := "urgent", icon := "alert" }]
      { tags := some ["urgent/sub"], frontmatter := none } = none
  ∧ getIconFromTags [{ tag := "urgent", icon := "alert" }]
      { tags := some ["urgently"], frontmatter := none } = none
  ∧ getIconFromTags [{ tag := "urgent", icon := "alert" }]
      { tags := some ["urgent"], frontmatter := none } = some "alert" := by
  refine ⟨?_, ?_, rfl, rfl, rfl, rfl⟩
  · intro ms md icon h
    unfold getIconFromTags at h
    by_cases hlen : (collectAllTags md).length = 0
    · simp [hlen] at h
    · rw [if_neg hlen] at h
      exact findTagIcon_some_mem (collectAllTags md) ms icon h
  · intro ms md h
    unfold getIconFromTags
    by_cases hlen : (collectAllTags md).length = 0
    · simp [hlen]
    · rw [if_neg hlen]
      exact findTagIcon_none_of_no_mem (collectAllTags md) ms h

/-- C10 witness: the no-match direction applied to a file tagged `other`
against the rule `urgent`. -/
theorem C10_tag_matching_exact_witness :
    getIconFromTags [{ tag := "urgent", icon := "alert" }]
      { tags := some ["other"], frontmatter := none } = none :=
  C10_tag_matching_exact.2.1 _ _ (by decide)

/-- C8: a malformed import payload — one whose parse failed, whose parsed
value is not an array, or an array with an element lacking a `tag` or
`icon` property — is rejected with a user-visible `Import failed: …`
notice and the stored mapping list is left completely unchanged (no
element is applied); and the validator errors exactly on those payloads. -/
theorem C8_import_all_or_nothing :
    (∀ (current : List TagMapping) (j : Json) (action : ImportAction)
       (dupChoice : DupChoice) (e : String),
       validateImport j = .error e →
       importMappings current (.ok j) action dupChoice
         = (current, some ("Import failed: " ++ e)))
  ∧ (∀ (current : List TagMapping) (action : ImportAction)
       (dupChoice : DupChoice) (e : String),
       importMappings current (.error e) action dupChoice
         = (current, some ("Import failed: " ++ e)))
  ∧ (∀ (items : List Json),
       (∃ e, validateImport (.arr items) = .error e) ↔
         ¬ ∀ it ∈ items, hasProp it "tag" = true ∧ hasProp it "icon" = true)
  ∧ (∀ (j : Json), (∀ items, j ≠ .arr items) →
       validateImport j = .error "Invalid format: expected array") := by
  refine ⟨?_, ?_, ?_, ?_⟩
  · intro current j action dupChoice e hv
    unfold importMappings
    simp only [hv]
  · intro current action dupChoice e
    rfl
  · intro items
    simp only [validateImport]
    by_cases hall : (items.all fun it => hasProp it "tag" && hasProp it "icon") = true
    · rw [if_pos hall]
      simp only [List.all_eq_true, Bool.and_eq_true] at hall
      simp
      exact hall
    · rw [if_neg hall]
      simp only [List.all_eq_true, Bool.and_eq_true] at hall
      simp [hall]
  · intro j h
    cases j with
    | arr items => exact absurd rfl (h items)
    | null => rfl
    | bool b => rfl
    | num n => rfl
    | str s => rfl
    | obj fields => rfl

/-- C8 witness: importing a payload that parses to a plain string is
rejected with the array-format error and the current mappings survive. -/
theorem C8_import_all_or_nothing_witness :
    importMappings [{ tag := "a", icon := "b" }] (.ok (.str "nope")) .merge .skip
      = ([{ tag := "a", icon := "b" }],
         some "Import failed: Invalid format: expected array") :=
  C8_import_all_or_nothing.1 _ _ _ _ _ rfl

/-- Decoding an encoded tag-mapping list recovers it. -/
theorem decodeListWith_tagMappingToJson :
    ∀ (l : List TagMapping),
      decodeListWith decodeTagMapping (l.map tagMappingToJson) = some l
  | [] => rfl
  | m :: rest => by
    have hm : decodeTagMapping (tagMappingToJson m) = some m := rfl
    simp only [List.map_cons, decodeListWith, hm,
      decodeListWith_tagMappingToJson rest]
    rfl

/-- Decoding an encoded folder-mapping list recovers it. -/
theorem decodeListWith_folderMappingToJson :
    ∀ (l : List FolderMapping),
      decodeListWith decodeFolderMapping (l.map folderMappingToJson) = some l
  | [] => rfl
  | m :: rest => by
    have hm : decodeFolderMapping (folderMappingToJson m) = some m := rfl
    simp only [List.map_cons, decodeListWith, hm,
      decodeListWith_folderMappingToJson rest]
    rfl

/-- C7: any settings record — whatever its toggle values, property name
and (possibly empty) mapping lists — serialized to JSON and loaded back
through `Object.assign({}, DEFAULT_SETTINGS, data)` yields a record equal
to the original. -/
theorem C7_settings_round_trip (s : PluginSettings) :
    loadSettings (settingsToJson s) = s := by
  obtain ⟨f1, f2, f3, f4, f5, f6, f7, f8, f9⟩ := s
  have h1 : jsonProp (settingsToJson ⟨f1, f2, f3, f4, f5, f6, f7, f8, f9⟩)
      "enableFrontmatter" = some (.bool f1) := rfl
  have h2 : jsonProp (settingsToJson ⟨f1, f2, f3, f4, f5, f6, f7, f8, f9⟩)
      "frontmatterProperty" = some (.str f2) := rfl
  have h3 : jsonProp (settingsToJson ⟨f1, f2, f3, f4, f5, f6, f7, f8, f9⟩)
      "enableTags" = some (.bool f3) := rfl
  have h4 : jsonProp (settingsToJson ⟨f1, f2, f3, f4, f5, f6, f7, f8, f9⟩)
      "enableFolders" = some (.bool f4) := rfl
  have h5 : jsonProp (settingsToJson ⟨f1, f2, f3, f4, f5, f6, f7, f8, f9⟩)
      "renderInWikilinks" = some (.bool f5) := rfl
  have h6 : jsonProp (settingsToJson ⟨f1, f2, f3, f4, f5, f6, f7, f8, f9⟩)
      "renderInFileView" = some (.bool f6) := rfl
  have h7 : jsonProp (settingsToJson ⟨f1, f2, f3, f4, f5, f6, f7, f8, f9⟩)
      "renderInFileLists" = some (.bool f7) := rfl
  have h8 : jsonProp (settingsToJson ⟨f1, f2, f3, f4, f5, f6, f7, f8, f9⟩)
      "tagMappings" = some (.arr (f8.map tagMappingToJson)) := rfl
  have h9 : jsonProp (settingsToJson ⟨f1, f2, f3, f4, f5, f6, f7, f8, f9⟩)
      "folderMappings" = some (.arr (f9.map folderMappingToJson)) := rfl
  unfold loadSettings
  rw [h1, h2, h3, h4, h5, h6, h7, h8, h9]
  simp [decodeBool, decodeStr, decodeList,
    decodeListWith_tagMappingToJson, decodeListWith_folderMappingToJson]

/-- Selection steps reassociate: folding `p` then `q` into an accumulator
equals folding the two-element selection of `p` and `q`. -/
theorem preferDeeper_assoc (acc : Option (Nat × String)) (p q : Nat × String) :
    preferDeeper (preferDeeper acc p) q = combineOpt acc (preferDeeper (some p) q) := by
  cases acc with
  | none => simp only [preferDeeper, combineOpt]; split_ifs <;> rfl
  | some a =>
    by_cases h1 : p.1 > a.1 <;> by_cases h2 : q.1 > p.1 <;>
      simp only [preferDeeper, combineOpt, h1, h2, if_true, if_false,
        if_pos, if_neg] <;> split_ifs <;> first | rfl | omega

/-- The left fold of `preferDeeper` computes the first-encountered
deepest pair. -/
theorem foldl_preferDeeper_eq :
    ∀ (l : List (Nat × String)) (acc : Option (Nat × String)),
      l.foldl preferDeeper acc = combineOpt acc (deepestFirst l)
  | [], acc => rfl
  | p :: rest, acc => by
    rw [List.foldl_cons, foldl_preferDeeper_eq rest (preferDeeper acc p)]
    cases hr : deepestFirst rest with
    | none => simp [deepestFirst, hr, combineOpt]
    | some q =>
      simp only [deepestFirst, hr, combineOpt]
      exact preferDeeper_assoc acc p q

/-- When every rule's icon is non-blank, the `getIconFromFolder` loop is
the `preferDeeper` fold over the matching rules. -/
theorem folderLoop_eq_foldl (filePath : String) :
    ∀ (ms : List FolderMapping), (∀ m ∈ ms, jsTrim m.icon ≠ "") →
      ∀ (acc : Option (Nat × String)),
        folderLoop filePath acc ms
          = (matchingFolderRules ms filePath).foldl preferDeeper acc
  | [], _, acc => rfl
  | m :: rest, h, acc => by
    have hne : jsTrim m.icon ≠ "" := h m (List.mem_cons_self m rest)
    have hbne : (m.icon != "" && jsTrim m.icon != "") = true := by
      simp [bne_iff_ne, hne, ne_empty_of_trim_ne_empty hne]
    have hrest : ∀ m' ∈ rest, jsTrim m'.icon ≠ "" :=
      fun m' hm' => h m' (List.mem_cons_of_mem m hm')
    simp only [folderLoop, matchingFolderRules, List.filterMap_cons]
    by_cases hmatch :
        folderRuleMatches (normalizeFolderPath m.path) filePath = true
    · simp only [hmatch, if_true, hbne]
      have hstep : (if Option.all
            (fun dm => decide ((jsSplitSlash (normalizeFolderPath m.path)).length > dm.1)) acc = true then
            some ((jsSplitSlash (normalizeFolderPath m.path)).length, m.icon)
          else acc)
          = preferDeeper acc ((jsSplitSlash (normalizeFolderPath m.path)).length, m.icon) := by
        cases acc with
        | none => rfl
        | some q =>
          simp only [Option.all_some, preferDeeper]
          split_ifs with hgt hgt2 <;> first | rfl | simp_all
      rw [hstep]
      rw [folderLoop_eq_foldl filePath rest hrest _]
      simp [matchingFolderRules]
    · simp only [Bool.not_eq_true] at hmatch
      simp only [hmatch, Bool.false_eq_true, if_false]
      rw [folderLoop_eq_foldl filePath rest hrest acc]
      simp [matchingFolderRules]

/-- `deepestFirst` selects an element of its input list. -/
theorem deepestFirst_mem :
    ∀ (l : List (Nat × String)) (q : Nat × String),
      deepestFirst l = some q → q ∈ l
  | [], q, h => by simp [deepestFirst] at h
  | p :: rest, q, h => by
    simp only [deepestFirst] at h
    cases hr : deepestFirst rest with
    | none => rw [hr] at h; injection h with h; exact h ▸ List.mem_cons_self p rest
    | some r =>
      rw [hr] at h
      dsimp only at h
      by_cases hgt : r.1 > p.1
      · rw [if_pos hgt] at h
        injection h with h
        exact h ▸ List.mem_cons_of_mem p (deepestFirst_mem rest r hr)
      · rw [if_neg hgt] at h
        injection h with h
        exact h ▸ List.mem_cons_self p rest

/-- Every matching-rule pair carries the icon of one of the rules. -/
theorem matchingFolderRules_icon (ms : List FolderMapping) (filePath : String)
    (p : Nat × String) (hp : p ∈ matchingFolderRules ms filePath) :
    ∃ m ∈ ms, p.2 = m.icon := by
  unfold matchingFolderRules at hp
  rw [List.mem_filterMap] at hp
  obtain ⟨m, hm, heq⟩ := hp
  by_cases hmatch : folderRuleMatches (normalizeFolderPath m.path) filePath = true
  · rw [if_pos hmatch] at heq
    injection heq with heq
    exact ⟨m, hm, by rw [← heq]⟩
  · rw [if_neg hmatch] at heq
    cases heq

/-- C5: when the folder rules all carry non-blank icons, folder resolution
returns the icon of the matching rule of greatest depth, the first
encountered winning ties; concretely, with rules `work → briefcase` and
`work/active → zap`, a file at `work/active/x.md` resolves to `zap` and a
file at `work/other/x.md` to `briefcase` (frontmatter and tag tiers
matching nothing). -/
theorem C5_deepest_folder_wins :
    (∀ (folderMappings : List FolderMapping) (filePath : String),
       (∀ m ∈ folderMappings, jsTrim m.icon ≠ "") →
       getIconFromFolder folderMappings filePath
         = (deepestFirst (matchingFolderRules folderMappings filePath)).map
             (fun p => p.2))
  ∧ (getIconForFile
       { DEFAULT_SETTINGS with
           enableFolders := true
           folderMappings :=
             [{ path := "work", icon := "briefcase" },
              { path := "work/active", icon := "zap" }] }
       [] "work/active/x.md" (some { tags := none, frontmatter := none })).1
      = some "zap"
  ∧ (getIconForFile
       { DEFAULT_SETTINGS with
           enableFolders := true
           folderMappings :=
             [{ path := "work", icon := "briefcase" },
              { path := "work/active", icon := "zap" }] }
       [] "work/other/x.md" (some { tags := none, frontmatter := none })).1
      = some "briefcase" := by
  refine ⟨?_, by decide, by decide⟩
  intro folderMappings filePath hall
  unfold getIconFromFolder
  rw [folderLoop_eq_foldl filePath folderMappings hall none,
    foldl_preferDeeper_eq]
  have hcomb : ∀ (r : Option (Nat × String)), combineOpt none r = r := by
    intro r; cases r <;> rfl
  rw [hcomb]
  cases hr : deepestFirst (matchingFolderRules folderMappings filePath) with
  | none => rfl
  | some q =>
    obtain ⟨m, hm, hicon⟩ :=
      matchingFolderRules_icon folderMappings filePath q
        (deepestFirst_mem _ q hr)
    have hne : q.2 ≠ "" := by
      rw [hicon]; exact ne_empty_of_trim_ne_empty (hall m hm)
    obtain ⟨qd, qi⟩ := q
    simp only at hne
    simp [bne_iff_ne, hne]

/-- C5 witness: the deepest-match characterization applied to the two
concrete rules. -/
theorem C5_deepest_folder_wins_witness :
    getIconFromFolder
        [{ path := "work", icon := "briefcase" },
         { path := "work/active", icon := "zap" }] "work/active/x.md"
      = (deepestFirst (matchingFolderRules
          [{ path := "work", icon := "briefcase" },
           { path := "work/active", icon := "zap" }] "work/active/x.md")).map
          (fun p => p.2) :=
  C5_deepest_folder_wins.1 _ _ (by decide)

end SimpleIcons
